import Mathlib

/-! Personal finance tracker: browser client (`static/main.js`)

A shallow embedding of the client script.  The script is event wiring around
five handlers (`fetchTransactions`, `addTransaction`, `saveEdit`,
`deleteTransaction`, `fetchSummary`) plus the helpers `populateTable`,
`showEditOverlay`, `hideEditOverlay` and `clearForm`.

The first part of the file embeds the platform functions the script calls
(`String.prototype.trim`, `parseFloat`, `isNaN`, `Number.prototype.toString`,
`Number.prototype.toFixed`, `URLSearchParams`, `JSON.stringify`), following
ECMA-262 and the WHATWG URL standard.  The second part embeds the script
itself over an explicit state (`editingTransactionId` and the document) with
a trace of the observable effects (dialogs, network requests, console output).
-/

namespace FinanceTracker

/-! ## Strings -/

/-- JavaScript strings, as sequences of characters. -/
abbrev JSString := List Char

/-- The code points removed by `String.prototype.trim`: ECMAScript `WhiteSpace`
(TAB, VT, FF, ZWNBSP and the Unicode space separators) and `LineTerminator`
(LF, CR, LS, PS). -/
def isTrimChar (c : Char) : Bool :=
  let n := c.toNat
  n == 0x09 || n == 0x0A || n == 0x0B || n == 0x0C || n == 0x0D || n == 0x20 ||
  n == 0xA0 || n == 0x1680 || (0x2000 ≤ n && n ≤ 0x200A) || n == 0x2028 ||
  n == 0x2029 || n == 0x202F || n == 0x205F || n == 0x3000 || n == 0xFEFF

/-- The abstract operation `TrimString(s, start)`. -/
def trimStart (s : JSString) : JSString := s.dropWhile isTrimChar

/-- The abstract operation `TrimString(s, end)`. -/
def trimEnd (s : JSString) : JSString := (s.reverse.dropWhile isTrimChar).reverse

/-- The method `String.prototype.trim`. -/
def trim (s : JSString) : JSString := trimEnd (trimStart s)

/-- `ToBoolean` on a string: the empty string is the only falsy one. -/
def strTruthy (s : JSString) : Bool := !s.isEmpty

/-! ## Numbers -/

/-- JavaScript Number values.  A finite value is given by the rational it
denotes (every double is a dyadic rational); the two zeros are identified,
which no function used by the script distinguishes.  The type holds more
rationals than there are doubles: `parseFloat` only yields doubles, `toFixed`
below `10 ^ 21` is exact on every rational, and `numberToString` is meant for
the doubles. -/
inductive JSNumber where
  | nan
  | posInf
  | negInf
  | finite (q : ℚ)
deriving DecidableEq

/-- The global function `isNaN`, on a Number. -/
def isNaN : JSNumber → Bool
  | .nan => true
  | _ => false

/-- `ToBoolean` on a Number: zero and NaN are falsy. -/
def numTruthy : JSNumber → Bool
  | .nan => false
  | .finite q => decide (q ≠ 0)
  | _ => true

/-- Unary minus on a Number. -/
def JSNumber.neg : JSNumber → JSNumber
  | .nan => .nan
  | .posInf => .negInf
  | .negInf => .posInf
  | .finite q => .finite (-q)

/-- Binary logarithm rounded down, by halving (`fuel` bounds the halvings). -/
def log2Fuel : Nat → Nat → Nat
  | 0, _ => 0
  | fuel + 1, n => if 2 ≤ n then log2Fuel fuel (n / 2) + 1 else 0

/-- Whether `n / d < 2 ^ e`, for `d > 0`. -/
def ltPow2 (n d : Nat) (e : Int) : Bool :=
  if 0 ≤ e then decide (n < d * 2 ^ e.toNat) else decide (n * 2 ^ (-e).toNat < d)

/-- The integer `e` with `2 ^ e ≤ n / d < 2 ^ (e + 1)`, for `n, d > 0`. -/
def floorLog2 (n d : Nat) : Int :=
  let e : Int := (log2Fuel n n : Int) - (log2Fuel d d : Int)
  if ltPow2 n d e then e - 1 else e

/-- Rounding of the non-negative rational `n / d` (with `d > 0`) to the nearest
IEEE 754 binary64 value, ties to even: 53 significant bits, least exponent
`-1022` (below it the spacing stays `2 ^ (-1074)`), overflow to infinity from
`2 ^ 1024` on. -/
def roundToDouble (n d : Nat) : JSNumber :=
  if n = 0 then .finite 0 else
  let e := max (floorLog2 n d) (-1022)
  let p := e - 52
  let num := if 0 ≤ p then n else n * 2 ^ (-p).toNat
  let den := if 0 ≤ p then d * 2 ^ p.toNat else d
  let m := num / den
  let r := num % den
  let m1 := if den < 2 * r || (2 * r == den && m % 2 == 1) then m + 1 else m
  let v : ℚ := if 0 ≤ p then (m1 * 2 ^ p.toNat : Nat) else (m1 : ℚ) / (2 ^ (-p).toNat : Nat)
  if (2 : ℚ) ^ 1024 ≤ v then .posInf else .finite v

/-- Whether a character is a decimal digit `0`..`9`. -/
def isDecDigit (c : Char) : Bool := decide (48 ≤ c.toNat ∧ c.toNat ≤ 57)

/-- The value of a string of decimal digits. -/
def digitsValue (ds : List Char) : Nat :=
  ds.foldl (fun acc c => 10 * acc + (c.toNat - 48)) 0

/-- The optional `ExponentPart` at the head of `s`: `e` or `E`, an optional
sign and at least one digit, with the text after it.  Absent or incomplete, the
exponent is `0` and nothing is consumed (the longest prefix that is a literal
stops before the `e`). -/
def scanExponent (s : List Char) : Int × List Char :=
  match s with
  | c :: rest =>
    if c = 'e' ∨ c = 'E' then
      match rest with
      | '+' :: ds =>
        if (ds.takeWhile isDecDigit).isEmpty then (0, s)
        else ((digitsValue (ds.takeWhile isDecDigit) : Int), ds.dropWhile isDecDigit)
      | '-' :: ds =>
        if (ds.takeWhile isDecDigit).isEmpty then (0, s)
        else (-(digitsValue (ds.takeWhile isDecDigit) : Int), ds.dropWhile isDecDigit)
      | ds =>
        if (ds.takeWhile isDecDigit).isEmpty then (0, s)
        else ((digitsValue (ds.takeWhile isDecDigit) : Int), ds.dropWhile isDecDigit)
    else (0, s)
  | [] => (0, s)

/-- The Number for the mathematical value `mant * 10 ^ ex`, `mant ≥ 0`. -/
def decimalToNumber (mant : Nat) (ex : Int) : JSNumber :=
  if 0 ≤ ex then roundToDouble (mant * 10 ^ ex.toNat) 1
  else roundToDouble mant (10 ^ (-ex).toNat)

/-- The longest prefix of `s` that is a `StrUnsignedDecimalLiteral`
(`Infinity`, or digits with an optional fraction and exponent, or a fraction
starting with the point), as a Number, with the text after it; `none` when no
prefix is one. -/
def scanUnsigned (s : List Char) : Option (JSNumber × List Char) :=
  if "Infinity".toList.isPrefixOf s then some (.posInf, s.drop 8) else
  let ip := s.takeWhile isDecDigit
  let r1 := s.dropWhile isDecDigit
  match r1 with
  | '.' :: r2 =>
    let fp := r2.takeWhile isDecDigit
    let r3 := r2.dropWhile isDecDigit
    if ip.isEmpty && fp.isEmpty then none
    else some (decimalToNumber (digitsValue (ip ++ fp)) ((scanExponent r3).1 - fp.length),
               (scanExponent r3).2)
  | _ =>
    if ip.isEmpty then none
    else some (decimalToNumber (digitsValue ip) (scanExponent r1).1, (scanExponent r1).2)

/-- The value of the longest prefix of `s` that is a
`StrUnsignedDecimalLiteral`; `nan` when no prefix is one. -/
def parseUnsigned (s : List Char) : JSNumber :=
  match scanUnsigned s with
  | some r => r.1
  | none => .nan

/-- The global function `parseFloat`: leading white space is skipped, the
longest prefix that is a `StrDecimalLiteral` is converted, and the result is
NaN when there is no such prefix. -/
def parseFloat (s : JSString) : JSNumber :=
  match trimStart s with
  | '+' :: rest => parseUnsigned rest
  | '-' :: rest => (parseUnsigned rest).neg
  | t => parseUnsigned t

/-- The decimal digits of `n`, most significant first (`0` gives `"0"`). -/
def decDigits (n : Nat) : List Char := Nat.toDigits 10 n

/-- The number of zeros between the decimal point and the first non-zero
digit of `a / b`, for `0 < a < b`: the least `j` from `j` on with
`b ≤ a * 10 ^ (j + 1)`. -/
def leadingZeros : Nat → Nat → Nat → Nat → Nat
  | 0, _, _, j => j
  | fuel + 1, a, b, j => if b ≤ a * 10 ^ (j + 1) then j else leadingZeros fuel a b (j + 1)

/-- The integer `n` with `10 ^ (n - 1) ≤ a / b < 10 ^ n`, for `a, b > 0`. -/
def decExponent (a b : Nat) : Int :=
  if b ≤ a then ((decDigits (a / b)).length : Int) else -(leadingZeros b a b 0 : Int)

/-- The search of `Number::toString` for the shortest digit string: the
triple `(s, k, n)` with `k` least such that some `k`-digit `s` has
`s * 10 ^ (n - k)` rounding to the double `a / b`; of two such `s` the one
nearer to `a / b` is taken, the even one on a tie.  `fuel` bounds `k`
(seventeen digits identify every double). -/
def shortestDigits : Nat → Nat → Nat → Nat → Int → Nat × Nat × Int
  | fuel, k, a, b, n =>
    let e := n - (k : Int)
    let num := if 0 ≤ e then a else a * 10 ^ (-e).toNat
    let den := if 0 ≤ e then b * 10 ^ e.toNat else b
    let lo := num / den
    let r := num % den
    let hi := lo + 1
    let target : JSNumber := .finite ((a : ℚ) / (b : ℚ))
    let okLo := decide (decimalToNumber lo e = target)
    let okHi := decide (decimalToNumber hi e = target)
    let preferHi := decide (den < 2 * r) || (2 * r == den && lo % 2 == 1)
    match fuel with
    | 0 => (lo, k, n)
    | fuel + 1 =>
      if okLo && (!okHi || !preferHi) then (lo, k, n)
      else if okHi then (if hi = 10 ^ k then (10 ^ (k - 1), k, n + 1) else (hi, k, n))
      else shortestDigits fuel (k + 1) a b n

/-- The digits and sign of the exponent in exponential notation: `e+21`. -/
def exponentSuffix (n : Int) : List Char :=
  'e' :: (if 0 ≤ n - 1 then '+' else '-') :: decDigits (n - 1).natAbs

/-- The layout steps of `Number::toString` for the digits `ds` (`k` of them)
and the decimal exponent `n`. -/
def layoutDigits (ds : List Char) (n : Int) : List Char :=
  let k : Int := ds.length
  if k ≤ n ∧ n ≤ 21 then ds ++ List.replicate (n - k).toNat '0'
  else if 0 < n ∧ n ≤ 21 then ds.take n.toNat ++ '.' :: ds.drop n.toNat
  else if -6 < n ∧ n ≤ 0 then '0' :: '.' :: (List.replicate (-n).toNat '0' ++ ds)
  else if k = 1 then ds ++ exponentSuffix n
  else ds.take 1 ++ '.' :: (ds.drop 1 ++ exponentSuffix n)

/-- The operation `Number::toString(x, 10)`, which is `ToString` on a Number
and what a template literal interpolates. -/
def numberToString : JSNumber → JSString
  | .nan => "NaN".toList
  | .posInf => "Infinity".toList
  | .negInf => "-Infinity".toList
  | .finite q =>
    if q = 0 then ['0'] else
    let a := q.num.natAbs
    let b := q.den
    let skn := shortestDigits 17 1 a b (decExponent a b)
    (if q < 0 then ['-'] else []) ++ layoutDigits (decDigits skn.1) skn.2.2

/-- The method `Number.prototype.toFixed(f)`: non-finite values and values of
magnitude `10 ^ 21` or more are rendered by `Number::toString`; otherwise the
integer `n` nearest to `x * 10 ^ f` (the larger on a tie) is written with its
last `f` digits after a decimal point, zero-padded to at least one digit
before it. -/
def toFixed (x : JSNumber) (f : Nat) : JSString :=
  match x with
  | .finite q =>
    let s : List Char := if q < 0 then ['-'] else []
    let a : ℚ := |q|
    if (10 : ℚ) ^ 21 ≤ a then s ++ numberToString (.finite a)
    else
      let n : Nat := (Rat.floor (a * 10 ^ f + 1 / 2)).toNat
      let m := decDigits n
      if f = 0 then s ++ m
      else
        let m1 := if m.length ≤ f then List.replicate (f + 1 - m.length) '0' ++ m else m
        s ++ (m1.take (m1.length - f) ++ '.' :: m1.drop (m1.length - f))
  | x => numberToString x

/-! ## Values, JSON and URL queries -/

/-- The JavaScript values a parsed JSON response is made of, with `undefined`
for a property that is absent. -/
inductive JSValue where
  | undefined
  | null
  | bool (b : Bool)
  | num (n : JSNumber)
  | str (s : JSString)
  | arr (items : List JSValue)
  | obj (members : List (JSString × JSValue))

/-- Whether a parsed object has an own member named `toString`.  Such a
member is never callable, and it hides `Object.prototype.toString`. -/
def hidesToString (members : List (JSString × JSValue)) : Bool :=
  members.any (fun kv => kv.1 == "toString".toList)

mutual
/-- The operation `ToString` on a value, which is also what `"text" + value`
appends: arrays join their elements with commas (`null` and `undefined`
elements give the empty string), plain objects give `[object Object]`.  `none`
is the `TypeError` of `OrdinaryToPrimitive` on an object whose own `toString`
member hides the inherited method (`valueOf` returns the object itself, so no
method yields a primitive). -/
def JSValue.toJSString : JSValue → Option JSString
  | .undefined => some "undefined".toList
  | .null => some "null".toList
  | .bool true => some "true".toList
  | .bool false => some "false".toList
  | .num n => some (numberToString n)
  | .str s => some s
  | .arr items => JSValue.joinItems items
  | .obj members => if hidesToString members then none else some "[object Object]".toList
/-- The method `Array.prototype.join` with the default separator. -/
def JSValue.joinItems : List JSValue → Option JSString
  | [] => some []
  | [x] => JSValue.itemString x
  | x :: y :: rest =>
    match JSValue.itemString x, JSValue.joinItems (y :: rest) with
    | some first, some others => some (first ++ ',' :: others)
    | _, _ => none
/-- The text of one array element inside `join`. -/
def JSValue.itemString : JSValue → Option JSString
  | .undefined => some []
  | .null => some []
  | .bool true => some "true".toList
  | .bool false => some "false".toList
  | .num n => some (numberToString n)
  | .str s => some s
  | .arr items => JSValue.joinItems items
  | .obj members => if hidesToString members then none else some "[object Object]".toList
end

/-- `ToBoolean` on a value. -/
def JSValue.truthy : JSValue → Bool
  | .undefined => false
  | .null => false
  | .bool b => b
  | .num n => numTruthy n
  | .str s => strTruthy s
  | .arr _ => true
  | .obj _ => true

/-- Reading the property `key` of a value, for the keys the script reads
(none of them is defined on a built-in prototype): `none` is the `TypeError`
raised on `null` and `undefined`; a missing member reads as `undefined`. -/
def JSValue.getProp (v : JSValue) (key : JSString) : Option JSValue :=
  match v with
  | .undefined => none
  | .null => none
  | .obj members =>
    match members.find? (fun kv => kv.1 == key) with
    | some kv => some kv.2
    | none => some .undefined
  | _ => some .undefined

/-- The call `v.toFixed(2)`: only a Number has the method, on any other value
the call raises a `TypeError` (`none`). -/
def JSValue.callToFixed2 : JSValue → Option JSString
  | .num n => some (toFixed n 2)
  | _ => none

/-- An upper-case hexadecimal digit. -/
def hexUpper (d : Nat) : Char := if d < 10 then Char.ofNat (48 + d) else Char.ofNat (55 + d)

/-- A lower-case hexadecimal digit. -/
def hexLower (d : Nat) : Char := if d < 10 then Char.ofNat (48 + d) else Char.ofNat (87 + d)

/-- The UTF-8 encoding of a code point. -/
def utf8Bytes (c : Char) : List Nat :=
  let n := c.toNat
  if n < 0x80 then [n]
  else if n < 0x800 then [0xC0 + n / 64, 0x80 + n % 64]
  else if n < 0x10000 then [0xE0 + n / 4096, 0x80 + n / 64 % 64, 0x80 + n % 64]
  else [0xF0 + n / 262144, 0x80 + n / 4096 % 64, 0x80 + n / 64 % 64, 0x80 + n % 64]

/-- Percent-encoding of one byte: `%` and two upper-case hexadecimal digits. -/
def percentByte (b : Nat) : List Char := ['%', hexUpper (b / 16), hexUpper (b % 16)]

/-- The bytes left as they are by the `application/x-www-form-urlencoded`
serializer: ASCII letters and digits and `*`, `-`, `.`, `_`. -/
def formSafe (c : Char) : Bool :=
  let n := c.toNat
  (48 ≤ n && n ≤ 57) || (65 ≤ n && n ≤ 90) || (97 ≤ n && n ≤ 122) ||
  n == 42 || n == 45 || n == 46 || n == 95

/-- Form-encoding of one code point: a space becomes `+`, a safe character
stays, every other one is the percent-encoding of its UTF-8 bytes. -/
def formEncodeChar (c : Char) : List Char :=
  if c = ' ' then ['+']
  else if formSafe c then [c]
  else (utf8Bytes c).flatMap percentByte

/-- Form-encoding of a string. -/
def formEncode (s : JSString) : JSString := s.flatMap formEncodeChar

/-- The method `URLSearchParams.prototype.toString`: the
`application/x-www-form-urlencoded` serialization of the list of pairs. -/
def URLSearchParams.serialize : List (JSString × JSString) → JSString
  | [] => []
  | [p] => formEncode p.1 ++ '=' :: formEncode p.2
  | p :: q :: rest =>
    formEncode p.1 ++ '=' :: formEncode p.2 ++ '&' :: URLSearchParams.serialize (q :: rest)

/-- The operation `QuoteJSONString` on one code point. -/
def jsonQuoteChar (c : Char) : List Char :=
  let n := c.toNat
  if n = 8 then ['\\', 'b']
  else if n = 9 then ['\\', 't']
  else if n = 10 then ['\\', 'n']
  else if n = 12 then ['\\', 'f']
  else if n = 13 then ['\\', 'r']
  else if c = '"' then ['\\', '"']
  else if c = '\\' then ['\\', '\\']
  else if n < 32 then ['\\', 'u', '0', '0', hexLower (n / 16), hexLower (n % 16)]
  else [c]

/-- The operation `QuoteJSONString`. -/
def jsonQuote (s : JSString) : JSString := '"' :: (s.flatMap jsonQuoteChar ++ ['"'])

/-- The JSON text of a Number: `null` unless the number is finite. -/
def jsonNumber : JSNumber → JSString
  | .finite q => numberToString (.finite q)
  | _ => "null".toList

/-- The text `JSON.stringify({ date, category, description, amount })`. -/
def stringifyPayload (date category description : JSString) (amount : JSNumber) : JSString :=
  "\x7b\"date\":".toList ++ jsonQuote date ++ ",\"category\":".toList ++ jsonQuote category ++
  ",\"description\":".toList ++ jsonQuote description ++ ",\"amount\":".toList ++
  jsonNumber amount ++ "\x7d".toList

/-! ## The document, the network and the trace -/

/-- A row of the transactions table: the markup assigned to its `innerHTML`. -/
structure TableRow where
  innerHTML : JSString
deriving DecidableEq

/-- The parts of the page the script reads and writes: the `value` of each
named input, the `style.display` of the edit overlay, the rows of
`#transactions-table tbody` and the markup of `#summary-result`.  The four
`default*` fields are the default values of the controls of `#add-form`, which
`form.reset()` restores. -/
structure Document where
  startDate : JSString
  endDate : JSString
  filterCategory : JSString
  date : JSString
  category : JSString
  description : JSString
  amount : JSString
  defaultDate : JSString
  defaultCategory : JSString
  defaultDescription : JSString
  defaultAmount : JSString
  editDate : JSString
  editCategory : JSString
  editDescription : JSString
  editAmount : JSString
  summaryYear : JSString
  summaryMonth : JSString
  editOverlayDisplay : JSString
  tbody : List TableRow
  summaryResult : JSString
deriving DecidableEq

/-- The state of the script: the module variable `editingTransactionId`
(`none` is `null`) and the document. -/
structure World where
  editingTransactionId : Option JSNumber
  doc : Document
deriving DecidableEq

/-- A call of `fetch`: method, URL, `Content-Type` header and body. -/
structure Request where
  method : JSString
  url : JSString
  contentType : Option JSString
  body : Option JSString
deriving DecidableEq

/-- What the two awaits `fetch(...)` and `res.json()` yield: the first
promise rejects, the second rejects, or the body parses to a value. -/
inductive Reply where
  | transportFailure
  | parseFailure
  | json (data : JSValue)

/-- The surroundings of a handler run: the reply to each request and the
user's answer to a `confirm` dialog. -/
structure Env where
  respond : Request → Reply
  confirm : JSString → Bool

/-- The observable effects of a handler, in order. -/
inductive Effect where
  | alert (message : JSString)
  | confirm (message : JSString)
  | fetch (request : Request)
  | consoleError (label : JSString)
deriving DecidableEq

/-- Whether an effect is a network request. -/
def Effect.isFetch : Effect → Bool
  | .fetch _ => true
  | _ => false

/-- Whether an effect is an `alert` dialog. -/
def Effect.isAlert : Effect → Bool
  | .alert _ => true
  | _ => false

/-- Whether an effect is a network request with the given method. -/
def Effect.isFetchWith (method : JSString) : Effect → Bool
  | .fetch r => r.method == method
  | _ => false

/-! ## The script -/

/-- The initial state: `let editingTransactionId = null;` (line 1). -/
def initialWorld (doc : Document) : World := { editingTransactionId := none, doc := doc }

/-- The query parameters of `fetchTransactions` (lines 15-24): the trimmed
filter inputs, each appended when it is truthy. -/
def transactionsParams (d : Document) : List (JSString × JSString) :=
  let startDate := trim d.startDate
  let endDate := trim d.endDate
  let category := trim d.filterCategory
  let params : List (JSString × JSString) := []
  let params := if strTruthy startDate then params ++ [("start_date".toList, startDate)] else params
  let params := if strTruthy endDate then params ++ [("end_date".toList, endDate)] else params
  let params := if strTruthy category then params ++ [("category".toList, category)] else params
  params

/-- The URL requested by `fetchTransactions` (lines 19-26). -/
def transactionsUrl (d : Document) : JSString :=
  let url := "/api/transactions".toList
  let params := transactionsParams d
  if strTruthy (URLSearchParams.serialize params) then url ++ '?' :: URLSearchParams.serialize params
  else url

/-- The request `fetch(url)` of `fetchTransactions` (line 29). -/
def transactionsRequest (d : Document) : Request :=
  { method := "GET".toList, url := transactionsUrl d, contentType := none, body := none }

/-- The markup of a row (lines 45-54), from the texts interpolated into it:
the three text cells, the amount cell, and the identifier and amount written
into the two `onclick` handlers. -/
def rowMarkup (date category description fixedAmount id amount : JSString) : JSString :=
  "\n      <td>".toList ++ date ++ "</td>\n      <td>".toList ++ category ++
  "</td>\n      <td>".toList ++ description ++ "</td>\n      <td>".toList ++ fixedAmount ++
  "</td>\n      <td>\n        <button onclick=\"showEditOverlay(".toList ++ id ++ ", '".toList ++
  date ++ "', '".toList ++ category ++ "', '".toList ++ description ++ "', ".toList ++ amount ++
  ")\">Edit</button>\n        <button style=\"margin-left: 8px;\" onclick=\"deleteTransaction(".toList ++
  id ++ ")\">Delete</button>\n      </td>\n    ".toList

/-- The callback of `forEach` in `populateTable` (lines 42-54), up to the row
it builds: the element is destructured, the template is evaluated, and the row
gets the markup.  A `TypeError` (`none`) is raised by destructuring `null`, by
`amount.toFixed` on anything but a Number, and by interpolating an object
that has no string conversion. -/
def renderRow (t : JSValue) : Option TableRow :=
  match t.getProp "id".toList, t.getProp "date".toList, t.getProp "category".toList,
        t.getProp "description".toList, t.getProp "amount".toList with
  | some id, some date, some category, some description, some amount =>
    match date.toJSString, category.toJSString, description.toJSString, amount.callToFixed2,
          id.toJSString, amount.toJSString with
    | some dateText, some categoryText, some descriptionText, some fixed, some idText,
        some amountText =>
      some ⟨rowMarkup dateText categoryText descriptionText fixed idText amountText⟩
    | _, _, _, _, _, _ => none
  | _, _, _, _, _ => none

/-- The loop `transactions.forEach(...)` with `tbody.appendChild(row)` (lines
42-57) over the rows already appended: the rows at the end, and whether the
loop ran to its end (`false`: a callback raised, which stops the loop). -/
def appendRows : List JSValue → List TableRow → List TableRow × Bool
  | [], rows => (rows, true)
  | t :: rest, rows =>
    match renderRow t with
    | some row => appendRows rest (rows ++ [row])
    | none => (rows, false)

/-- The function `populateTable` (lines 38-58): the table body is emptied,
then a row is appended per element.  The flag is `false` when a `TypeError`
was raised: by `forEach` on a value that is not an array, or by a callback. -/
def populateTable (transactions : JSValue) (w : World) : World × Bool :=
  let w0 : World := { w with doc := { w.doc with tbody := [] } }
  match transactions with
  | .arr items =>
    let r := appendRows items w0.doc.tbody
    ({ w0 with doc := { w0.doc with tbody := r.1 } }, r.2)
  | _ => (w0, false)

/-- The function `fetchTransactions` (lines 14-35).  Any rejection or
exception inside `try` ends in `console.error`. -/
def fetchTransactions (env : Env) (w : World) : World × List Effect :=
  let req := transactionsRequest w.doc
  match env.respond req with
  | .json transactions =>
    match populateTable transactions w with
    | (w1, true) => (w1, [.fetch req])
    | (w1, false) => (w1, [.fetch req, .consoleError "Error fetching transactions:".toList])
  | _ => (w, [.fetch req, .consoleError "Error fetching transactions:".toList])

/-- The function `clearForm` (lines 192-194): `reset()` on the form, which
gives its controls their default values.  The page's form is `add-form`, with
the four inputs of `addTransaction`. -/
def clearForm (_formId : JSString) (d : Document) : Document :=
  { d with date := d.defaultDate, category := d.defaultCategory,
           description := d.defaultDescription, amount := d.defaultAmount }

/-- The check of lines 67 and 117 on the trimmed fields and the parsed amount:
`!date || !category || !description || isNaN(amount)`. -/
def fieldsInvalid (date category description : JSString) (amount : JSNumber) : Bool :=
  !strTruthy date || !strTruthy category || !strTruthy description || isNaN amount

/-- The request of `addTransaction` (lines 73-77). -/
def addRequest (d : Document) : Request :=
  { method := "POST".toList, url := "/api/transactions".toList,
    contentType := some "application/json".toList,
    body := some (stringifyPayload (trim d.date) (trim d.category) (trim d.description)
      (parseFloat (trim d.amount))) }

/-- The function `addTransaction` (lines 61-90).  Reading `data.error` on
`null` raises, which `catch` logs like a rejection. -/
def addTransaction (env : Env) (w : World) : World × List Effect :=
  let date := trim w.doc.date
  let category := trim w.doc.category
  let description := trim w.doc.description
  let amount := parseFloat (trim w.doc.amount)
  if fieldsInvalid date category description amount then
    (w, [.alert "Please fill out all fields correctly.".toList])
  else
    let req := addRequest w.doc
    match env.respond req with
    | .json data =>
      match data.getProp "error".toList with
      | some err =>
        if err.truthy then
          match err.toJSString with
          | some message => (w, [.fetch req, .alert ("Error: ".toList ++ message)])
          | none => (w, [.fetch req, .consoleError "Error adding transaction:".toList])
        else
          let w1 : World := { w with doc := clearForm "add-form".toList w.doc }
          let r := fetchTransactions env w1
          (r.1, [.fetch req, .alert "Transaction added!".toList] ++ r.2)
      | none => (w, [.fetch req, .consoleError "Error adding transaction:".toList])
    | _ => (w, [.fetch req, .consoleError "Error adding transaction:".toList])

/-- The function `showEditOverlay` (lines 93-100), called by the Edit button
with a number, three strings and a number; the amount is converted to a string
by the assignment to `value`. -/
def showEditOverlay (id : JSNumber) (date category description : JSString) (amount : JSNumber)
    (w : World) : World :=
  { editingTransactionId := some id,
    doc := { w.doc with editDate := date, editCategory := category,
                        editDescription := description, editAmount := numberToString amount,
                        editOverlayDisplay := "block".toList } }

/-- The function `hideEditOverlay` (lines 103-106). -/
def hideEditOverlay (w : World) : World :=
  { editingTransactionId := none,
    doc := { w.doc with editOverlayDisplay := "none".toList } }

/-- The request of `saveEdit` (lines 123-127) for the session identifier. -/
def saveRequest (id : JSNumber) (d : Document) : Request :=
  { method := "PUT".toList, url := "/api/transactions/".toList ++ numberToString id,
    contentType := some "application/json".toList,
    body := some (stringifyPayload (trim d.editDate) (trim d.editCategory)
      (trim d.editDescription) (parseFloat (trim d.editAmount))) }

/-- The function `saveEdit` (lines 109-140).  The guard `!editingTransactionId`
of line 110 returns on `null` and on a falsy number (zero, NaN). -/
def saveEdit (env : Env) (w : World) : World × List Effect :=
  match w.editingTransactionId with
  | none => (w, [])
  | some id =>
    if !numTruthy id then (w, []) else
    let date := trim w.doc.editDate
    let category := trim w.doc.editCategory
    let description := trim w.doc.editDescription
    let amount := parseFloat (trim w.doc.editAmount)
    if fieldsInvalid date category description amount then
      (w, [.alert "Please fill out all fields correctly.".toList])
    else
      let req := saveRequest id w.doc
      match env.respond req with
      | .json data =>
        match data.getProp "error".toList with
        | some err =>
          if err.truthy then
            match err.toJSString with
            | some message => (w, [.fetch req, .alert ("Error: ".toList ++ message)])
            | none => (w, [.fetch req, .consoleError "Error updating transaction:".toList])
          else
            let r := fetchTransactions env (hideEditOverlay w)
            (r.1, [.fetch req, .alert "Transaction updated successfully!".toList] ++ r.2)
        | none => (w, [.fetch req, .consoleError "Error updating transaction:".toList])
      | _ => (w, [.fetch req, .consoleError "Error updating transaction:".toList])

/-- The text of the `confirm` dialog of `deleteTransaction`. -/
def deletePrompt : JSString := "Are you sure you want to delete this transaction?".toList

/-- The request of `deleteTransaction` (line 147). -/
def deleteRequest (id : JSNumber) : Request :=
  { method := "DELETE".toList, url := "/api/transactions/".toList ++ numberToString id,
    contentType := none, body := none }

/-- The function `deleteTransaction` (lines 143-159), called by the Delete
button with a number. -/
def deleteTransaction (env : Env) (id : JSNumber) (w : World) : World × List Effect :=
  if !env.confirm deletePrompt then (w, [.confirm deletePrompt])
  else
    let req := deleteRequest id
    match env.respond req with
    | .json data =>
      match data.getProp "error".toList with
      | some err =>
        if err.truthy then
          match err.toJSString with
          | some message =>
            (w, [.confirm deletePrompt, .fetch req, .alert ("Error: ".toList ++ message)])
          | none => (w, [.confirm deletePrompt, .fetch req,
                         .consoleError "Error deleting transaction:".toList])
        else
          let r := fetchTransactions env w
          (r.1, [.confirm deletePrompt, .fetch req, .alert "Transaction deleted.".toList] ++ r.2)
      | none => (w, [.confirm deletePrompt, .fetch req,
                     .consoleError "Error deleting transaction:".toList])
    | _ => (w, [.confirm deletePrompt, .fetch req,
                .consoleError "Error deleting transaction:".toList])

/-- The query parameters of `fetchSummary` (lines 163-169). -/
def summaryParams (d : Document) : List (JSString × JSString) :=
  let year := trim d.summaryYear
  let month := trim d.summaryMonth
  let params : List (JSString × JSString) := []
  let params := if strTruthy year then params ++ [("year".toList, year)] else params
  let params := if strTruthy month then params ++ [("month".toList, month)] else params
  params

/-- The URL requested by `fetchSummary` (lines 166-170). -/
def summaryUrl (d : Document) : JSString :=
  let url := "/api/summary".toList
  let params := summaryParams d
  if strTruthy (URLSearchParams.serialize params) then url ++ '?' :: URLSearchParams.serialize params
  else url

/-- The request `fetch(url)` of `fetchSummary` (line 173). -/
def summaryRequest (d : Document) : Request :=
  { method := "GET".toList, url := summaryUrl d, contentType := none, body := none }

/-- The markup of the summary panel (lines 179-184). -/
def summaryMarkup (total income expense count : JSString) : JSString :=
  "\n        <p><strong>Total:</strong> ".toList ++ total ++
  "</p>\n        <p><strong>Income:</strong> ".toList ++ income ++
  "</p>\n        <p><strong>Expense:</strong> ".toList ++ expense ++
  "</p>\n        <p><strong>Number of Transactions:</strong> ".toList ++ count ++
  "</p>\n      ".toList

/-- The function `fetchSummary` (lines 162-189). -/
def fetchSummary (env : Env) (w : World) : World × List Effect :=
  let req := summaryRequest w.doc
  match env.respond req with
  | .json data =>
    match data.getProp "error".toList with
    | some err =>
      if err.truthy then
        match err.toJSString with
        | some message => (w, [.fetch req, .alert ("Error: ".toList ++ message)])
        | none => (w, [.fetch req, .consoleError "Error getting summary:".toList])
      else
        match (data.getProp "total".toList).bind JSValue.callToFixed2,
              (data.getProp "income".toList).bind JSValue.callToFixed2,
              (data.getProp "expense".toList).bind JSValue.callToFixed2,
              (data.getProp "transactions_count".toList).bind JSValue.toJSString with
        | some total, some income, some expense, some count =>
          ({ w with doc := { w.doc with
               summaryResult := summaryMarkup total income expense count } },
           [.fetch req])
        | _, _, _, _ => (w, [.fetch req, .consoleError "Error getting summary:".toList])
    | none => (w, [.fetch req, .consoleError "Error getting summary:".toList])
  | _ => (w, [.fetch req, .consoleError "Error getting summary:".toList])

/-! ## Inline handlers

The Edit and Delete buttons carry their handler as text in an `onclick`
attribute.  A click compiles the attribute value as a script; the part below
reads such a text when it is a call of a named function on literals, which is
the shape the row template writes. -/

/-- The values of the double-quoted `onclick` attributes written in a piece of
markup, in order: each runs from `onclick="` to the next double quote.
Character references are not decoded, which is exact for a value without
an ampersand. -/
def onclickValues : Nat → List Char → List JSString
  | 0, _ => []
  | fuel + 1, s =>
    if "onclick=\"".toList.isPrefixOf s then
      (s.drop 9).takeWhile (fun c => c != '"') ::
        onclickValues fuel ((s.drop 9).dropWhile (fun c => c != '"'))
    else
      match s with
      | [] => []
      | _ :: rest => onclickValues fuel rest

/-- The handler text of the Edit button of a row: the first `onclick`. -/
def TableRow.editHandler (row : TableRow) : Option JSString :=
  (onclickValues row.innerHTML.length row.innerHTML)[0]?

/-- The handler text of the Delete button of a row: the second `onclick`. -/
def TableRow.deleteHandler (row : TableRow) : Option JSString :=
  (onclickValues row.innerHTML.length row.innerHTML)[1]?

/-- The tokens of a handler text. -/
inductive Token where
  | ident (name : JSString)
  | num (n : JSNumber)
  | str (s : JSString)
  | lparen
  | rparen
  | comma
  | minus
  | semicolon
deriving DecidableEq

/-- The result of reading a string literal after its opening quote. -/
inductive StringScan where
  | done (value : JSString) (rest : List Char)
  | unterminated
  | unmodelled

/-- The body of a single-quoted string literal: it ends at the next quote; a
backslash escapes the next character; the text ending, or a line feed or
carriage return, before the closing quote leaves the literal unterminated.
Escapes by code (`\x`, `\u`, digits) and line continuations are not read. -/
def scanStringLiteral : List Char → List Char → StringScan
  | [], _ => .unterminated
  | '\'' :: rest, acc => .done acc.reverse rest
  | '\n' :: _, _ => .unterminated
  | '\r' :: _, _ => .unterminated
  | ['\\'], _ => .unterminated
  | '\\' :: c :: rest, acc =>
    if c = 'n' then scanStringLiteral rest ('\n' :: acc)
    else if c = 't' then scanStringLiteral rest ('\t' :: acc)
    else if c = 'r' then scanStringLiteral rest ('\r' :: acc)
    else if c = 'b' then scanStringLiteral rest (Char.ofNat 8 :: acc)
    else if c = 'f' then scanStringLiteral rest (Char.ofNat 12 :: acc)
    else if c = 'v' then scanStringLiteral rest (Char.ofNat 11 :: acc)
    else if c = 'x' ∨ c = 'u' ∨ isDecDigit c ∨ isTrimChar c then .unmodelled
    else scanStringLiteral rest (c :: acc)
  | c :: rest, acc => scanStringLiteral rest (c :: acc)

/-- The first character of an ASCII identifier. -/
def isIdentStart (c : Char) : Bool :=
  let n := c.toNat
  (65 ≤ n && n ≤ 90) || (97 ≤ n && n ≤ 122) || c == '_' || c == '$'

/-- A later character of an ASCII identifier. -/
def isIdentPart (c : Char) : Bool := isIdentStart c || isDecDigit c

/-- The result of reading a handler text. -/
inductive HandlerOutcome where
  | call (fn : JSString) (args : List JSValue)
  | syntaxError
  | unmodelled
deriving Inhabited

/-- The result of splitting a handler text into tokens. -/
inductive LexResult where
  | tokens (ts : List Token)
  | syntaxError
  | unmodelled

/-- The tokens of a handler text, over the whole text: white space separates,
an unterminated string literal is a syntax error, and a character outside
identifiers, decimal literals, single-quoted strings and `( ) , - ;` leaves the
text unmodelled (as does a literal with a leading zero or one running into an
identifier, which are not decimal literals). -/
def lexHandler : Nat → List Char → List Token → LexResult
  | 0, _, _ => .unmodelled
  | _ + 1, [], acc => .tokens acc.reverse
  | fuel + 1, c :: rest, acc =>
    if isTrimChar c then lexHandler fuel rest acc
    else if c = '(' then lexHandler fuel rest (.lparen :: acc)
    else if c = ')' then lexHandler fuel rest (.rparen :: acc)
    else if c = ',' then lexHandler fuel rest (.comma :: acc)
    else if c = '-' then lexHandler fuel rest (.minus :: acc)
    else if c = ';' then lexHandler fuel rest (.semicolon :: acc)
    else if c = '\'' then
      match scanStringLiteral rest [] with
      | .done value rest1 => lexHandler fuel rest1 (.str value :: acc)
      | .unterminated => .syntaxError
      | .unmodelled => .unmodelled
    else if isIdentStart c then
      lexHandler fuel (rest.dropWhile isIdentPart) (.ident (c :: rest.takeWhile isIdentPart) :: acc)
    else if isDecDigit c || c = '.' then
      match scanUnsigned (c :: rest) with
      | some (n, rest1) =>
        if (c = '0' && (rest.head?.map isDecDigit).getD false) ||
            ((rest1.head?.map isIdentPart).getD false) then .unmodelled
        else lexHandler fuel rest1 (.num n :: acc)
      | none => .unmodelled
    else .unmodelled

/-- The arguments of a call, up to the closing parenthesis: literals separated
by commas.  A Number is a decimal literal or `Infinity` or `NaN`, with an
optional minus sign. -/
def parseArgs : List Token → List JSValue → Option (List JSValue × List Token)
  | .str s :: .comma :: rest, acc => parseArgs rest (.str s :: acc)
  | .str s :: .rparen :: rest, acc => some ((JSValue.str s :: acc).reverse, rest)
  | .num n :: .comma :: rest, acc => parseArgs rest (.num n :: acc)
  | .num n :: .rparen :: rest, acc => some ((JSValue.num n :: acc).reverse, rest)
  | .minus :: .num n :: .comma :: rest, acc => parseArgs rest (.num n.neg :: acc)
  | .minus :: .num n :: .rparen :: rest, acc => some ((JSValue.num n.neg :: acc).reverse, rest)
  | .ident name :: .comma :: rest, acc =>
    if name = "Infinity".toList then parseArgs rest (.num .posInf :: acc)
    else if name = "NaN".toList then parseArgs rest (.num .nan :: acc)
    else none
  | .ident name :: .rparen :: rest, acc =>
    if name = "Infinity".toList then some ((JSValue.num .posInf :: acc).reverse, rest)
    else if name = "NaN".toList then some ((JSValue.num .nan :: acc).reverse, rest)
    else none
  | .minus :: .ident name :: .comma :: rest, acc =>
    if name = "Infinity".toList then parseArgs rest (.num .negInf :: acc)
    else if name = "NaN".toList then parseArgs rest (.num .nan :: acc)
    else none
  | .minus :: .ident name :: .rparen :: rest, acc =>
    if name = "Infinity".toList then some ((JSValue.num .negInf :: acc).reverse, rest)
    else if name = "NaN".toList then some ((JSValue.num .nan :: acc).reverse, rest)
    else none
  | _, _ => none

/-- What a handler text does when run: the call it makes, when it is one call
of a named function on literals; a syntax error (the handler is not compiled
and the click does nothing) when a string literal is unterminated; otherwise
outside the model. -/
def evalHandler (text : JSString) : HandlerOutcome :=
  match lexHandler (text.length + 1) text [] with
  | .syntaxError => .syntaxError
  | .unmodelled => .unmodelled
  | .tokens (.ident fn :: .lparen :: .rparen :: rest) =>
    if rest.all (fun t => t == .semicolon) then .call fn [] else .unmodelled
  | .tokens (.ident fn :: .lparen :: rest) =>
    match parseArgs rest [] with
    | some (args, rest1) => if rest1.all (fun t => t == .semicolon) then .call fn args else .unmodelled
    | none => .unmodelled
  | .tokens _ => .unmodelled

/-! ## Vocabulary of the specification -/

/-- A transaction of the data model: integer identifier, date, category,
description and amount. -/
structure Transaction where
  id : Int
  date : JSString
  category : JSString
  description : JSString
  amount : JSNumber
deriving DecidableEq

/-- The object a transaction is in a parsed list response. -/
def Transaction.toJS (t : Transaction) : JSValue :=
  .obj [("id".toList, .num (.finite t.id)), ("date".toList, .str t.date),
        ("category".toList, .str t.category), ("description".toList, .str t.description),
        ("amount".toList, .num t.amount)]

/-- A document with every field empty and the overlay hidden. -/
def blankDocument : Document :=
  { startDate := [], endDate := [], filterCategory := [], date := [], category := [],
    description := [], amount := [], defaultDate := [], defaultCategory := [],
    defaultDescription := [], defaultAmount := [], editDate := [], editCategory := [],
    editDescription := [], editAmount := [], summaryYear := [], summaryMonth := [],
    editOverlayDisplay := "none".toList, tbody := [], summaryResult := [] }

/-- A server that answers every request with the empty object and a user who
accepts every confirmation. -/
def agreeableEnv : Env :=
  { respond := fun _ => .json (.obj []), confirm := fun _ => true }

/-- The add form passes validation as the specification words it: date,
category and description are non-empty after trimming and the amount parses
as a number. -/
def AddFormValid (d : Document) : Prop :=
  trim d.date ≠ [] ∧ trim d.category ≠ [] ∧ trim d.description ≠ [] ∧
    parseFloat (trim d.amount) ≠ .nan

instance (d : Document) : Decidable (AddFormValid d) := by
  unfold AddFormValid
  infer_instance

/-- The edit form passes the same validation. -/
def EditFormValid (d : Document) : Prop :=
  trim d.editDate ≠ [] ∧ trim d.editCategory ≠ [] ∧ trim d.editDescription ≠ [] ∧
    parseFloat (trim d.editAmount) ≠ .nan

instance (d : Document) : Decidable (EditFormValid d) := by
  unfold EditFormValid
  infer_instance

/-- The network requests among the effects of a handler. -/
def requestsOf : List Effect → List Request
  | [] => []
  | .fetch r :: rest => r :: requestsOf rest
  | _ :: rest => requestsOf rest

/-- The alert messages among the effects of a handler. -/
def alertsOf : List Effect → List JSString
  | [] => []
  | .alert m :: rest => m :: alertsOf rest
  | _ :: rest => alertsOf rest

/-- A user who declines every confirmation, with a server answering `{}`. -/
def decliningEnv : Env :=
  { respond := fun _ => .json (.obj []), confirm := fun _ => false }

/-- A server whose every request fails in transport. -/
def offlineEnv : Env :=
  { respond := fun _ => .transportFailure, confirm := fun _ => true }

/-- The fields of a filter or period that are set: those with a non-empty
value, in their order. -/
def nonEmptyFields (fields : List (JSString × JSString)) : List (JSString × JSString) :=
  fields.filter (fun p => !p.2.isEmpty)

/-- A text without its leading minus sign, when it has one. -/
def stripMinus (s : JSString) : JSString :=
  match s with
  | '-' :: rest => rest
  | _ => s

/-- One digit or more, a point, two digits. -/
def digitsPointTwoDigits (body : JSString) : Bool :=
  match body.dropWhile isDecDigit with
  | ['.', a, b] => !(body.takeWhile isDecDigit).isEmpty && isDecDigit a && isDecDigit b
  | _ => false

/-- A text shows a number with exactly two digits after the decimal point: an
optional minus sign, one digit or more, a point, two digits. -/
def shownWithTwoDecimals (s : JSString) : Bool := digitsPointTwoDigits (stripMinus s)

/-- A table cell with the given content. -/
def tableCell (content : JSString) : JSString := "<td>".toList ++ content ++ "</td>".toList

/-- The call the Edit button of a transaction is to make, as script text:
`showEditOverlay` on the identifier, the quoted date, category and
description, and the amount. -/
def Transaction.editCall (t : Transaction) : JSString :=
  "showEditOverlay(".toList ++ numberToString (.finite t.id) ++ ", '".toList ++ t.date ++
  "', '".toList ++ t.category ++ "', '".toList ++ t.description ++ "', ".toList ++
  numberToString t.amount ++ ")".toList

/-- The call the Delete button of a transaction is to make: `deleteTransaction`
on the identifier. -/
def Transaction.deleteCall (t : Transaction) : JSString :=
  "deleteTransaction(".toList ++ numberToString (.finite t.id) ++ ")".toList

/-- The row the specification describes for a transaction, cell by cell: the
date, the category, the description, the amount formatted by `toFixed(2)`, and
a last cell with the Edit and the Delete button, each cell on a line of its
own. -/
def Transaction.row (t : Transaction) : TableRow :=
  ⟨"\n      ".toList ++ tableCell t.date ++
   "\n      ".toList ++ tableCell t.category ++
   "\n      ".toList ++ tableCell t.description ++
   "\n      ".toList ++ tableCell (toFixed t.amount 2) ++
   "\n      ".toList ++ tableCell ("\n        <button onclick=\"".toList ++ t.editCall ++
      "\">Edit</button>\n        <button style=\"margin-left: 8px;\" onclick=\"".toList ++
      t.deleteCall ++ "\">Delete</button>\n      ".toList) ++
   "\n    ".toList⟩

/-- The text cells read from a piece of markup: for each `<td>`, the text
between it and the next tag.  On a row whose cells hold text without `<` these
are the cells' contents, in order. -/
def cellTexts : List Char → List JSString
  | [] => []
  | c :: rest =>
    if "<td>".toList.isPrefixOf (c :: rest) then
      (rest.drop 3).takeWhile (fun x => x != '<') :: cellTexts rest
    else cellTexts rest

/-- A server that answers every request with `{"error": ""}`. -/
def emptyErrorEnv : Env :=
  { respond := fun _ => .json (.obj [("error".toList, .str [])]), confirm := fun _ => true }

/-- A server that answers every request with `{"error": "Invalid date"}`. -/
def invalidDateEnv : Env :=
  { respond := fun _ => .json (.obj [("error".toList, .str "Invalid date".toList)]),
    confirm := fun _ => true }

/-- A page whose add form and edit form both hold a salary entry. -/
def salaryDocument : Document :=
  { blankDocument with
    date := "2024-01-01".toList, category := "Pay".toList, description := "Salary".toList,
    amount := "1000".toList, editDate := "2024-01-01".toList, editCategory := "Pay".toList,
    editDescription := "Salary".toList, editAmount := "1000".toList,
    editOverlayDisplay := "block".toList }

/-- Whether a handler outcome is the call of `showEditOverlay` with exactly
the identifier, date, category, description and amount of the transaction. -/
def callsShowEditOverlayWith (t : Transaction) : HandlerOutcome → Bool
  | .call fn [.num id, .str date, .str category, .str description, .num amount] =>
    fn == "showEditOverlay".toList && id == .finite t.id && date == t.date &&
      category == t.category && description == t.description && amount == t.amount
  | _ => false

/-- Whether a handler outcome is the call of `deleteTransaction` with the
identifier of the transaction. -/
def callsDeleteTransactionWith (t : Transaction) : HandlerOutcome → Bool
  | .call fn [.num id] => fn == "deleteTransaction".toList && id == .finite t.id
  | _ => false

/-- Whether a handler outcome is a syntax error. -/
def HandlerOutcome.isSyntaxError : HandlerOutcome → Bool
  | .syntaxError => true
  | _ => false

/-- A click on the Edit button of a row: the handler text is run, and a call
of `showEditOverlay` on a number, three strings and a number opens the edit
session; a syntax error leaves the state as it is.  `none`: the text is
outside the model. -/
def clickEdit (row : TableRow) (w : World) : Option World :=
  match row.editHandler.map evalHandler with
  | some (.call fn [.num id, .str date, .str category, .str description, .num amount]) =>
    if fn = "showEditOverlay".toList then some (showEditOverlay id date category description amount w)
    else none
  | some .syntaxError => some w
  | _ => none

/-! ## Lemmas and claims -/

theorem strTruthy_eq_true_iff (s : JSString) : strTruthy s = true ↔ s ≠ [] := by
  cases s <;> simp [strTruthy]

theorem isNaN_eq_false_iff (n : JSNumber) : isNaN n = false ↔ n ≠ .nan := by
  cases n <;> simp [isNaN]

theorem fieldsInvalid_eq_false_iff (date category description : JSString) (amount : JSNumber) :
    fieldsInvalid date category description amount = false ↔
      date ≠ [] ∧ category ≠ [] ∧ description ≠ [] ∧ amount ≠ .nan := by
  simp only [fieldsInvalid, Bool.or_eq_false_iff, Bool.not_eq_false', strTruthy_eq_true_iff,
    isNaN_eq_false_iff, and_assoc]

theorem fieldsInvalid_add (d : Document) :
    fieldsInvalid (trim d.date) (trim d.category) (trim d.description)
      (parseFloat (trim d.amount)) = false ↔ AddFormValid d :=
  fieldsInvalid_eq_false_iff _ _ _ _

theorem fieldsInvalid_edit (d : Document) :
    fieldsInvalid (trim d.editDate) (trim d.editCategory) (trim d.editDescription)
      (parseFloat (trim d.editAmount)) = false ↔ EditFormValid d :=
  fieldsInvalid_eq_false_iff _ _ _ _

/-- The effects of `fetchTransactions` hold one request, the list request. -/
theorem requestsOf_fetchTransactions (env : Env) (w : World) :
    requestsOf (fetchTransactions env w).2 = [transactionsRequest w.doc] := by
  unfold fetchTransactions
  dsimp only
  split
  · split <;> rfl
  · rfl

/-- The function `fetchTransactions` shows no alert. -/
theorem alertsOf_fetchTransactions (env : Env) (w : World) :
    alertsOf (fetchTransactions env w).2 = [] := by
  unfold fetchTransactions
  dsimp only
  split
  · split <;> rfl
  · rfl

/-- When the form is valid, `addTransaction` starts with the POST request. -/
theorem addTransaction_valid_head (env : Env) (w : World) (h : AddFormValid w.doc) :
    ∃ rest, (addTransaction env w).2 = .fetch (addRequest w.doc) :: rest := by
  have hv := (fieldsInvalid_add w.doc).mpr h
  unfold addTransaction
  simp only [hv, Bool.false_eq_true, if_false]
  split
  · split
    · split
      · split
        · exact ⟨_, rfl⟩
        · exact ⟨_, rfl⟩
      · exact ⟨_, rfl⟩
    · exact ⟨_, rfl⟩
  · exact ⟨_, rfl⟩

/-- When the form is invalid, `addTransaction` alerts and stops. -/
theorem addTransaction_invalid (env : Env) (w : World) (h : ¬ AddFormValid w.doc) :
    addTransaction env w = (w, [.alert "Please fill out all fields correctly.".toList]) := by
  have hv : fieldsInvalid (trim w.doc.date) (trim w.doc.category) (trim w.doc.description)
      (parseFloat (trim w.doc.amount)) = true := by
    cases hf : fieldsInvalid (trim w.doc.date) (trim w.doc.category) (trim w.doc.description)
      (parseFloat (trim w.doc.amount))
    · exact absurd ((fieldsInvalid_add w.doc).mp hf) h
    · rfl
  unfold addTransaction
  simp only [hv, if_true]

/-- C1: for every content of the add form, `addTransaction` issues a POST
request exactly when date, category and description are non-empty after
trimming and the amount parses as a number (and then the request is sent
first, to `/api/transactions`); in every other case it shows the alert and has
no other effect, so no network request at all. -/
theorem addTransaction_posts_iff_valid (env : Env) (w : World) :
    ((∃ r ∈ requestsOf (addTransaction env w).2, r.method = "POST".toList) ↔
        AddFormValid w.doc) ∧
    (AddFormValid w.doc →
      ∃ rest, (addTransaction env w).2 = .fetch (addRequest w.doc) :: rest) ∧
    (¬ AddFormValid w.doc →
      addTransaction env w = (w, [.alert "Please fill out all fields correctly.".toList]) ∧
      requestsOf (addTransaction env w).2 = []) := by
  refine ⟨⟨fun hex => ?_, fun hv => ?_⟩, addTransaction_valid_head env w, fun hn => ?_⟩
  · by_contra hn
    obtain ⟨r, hr, _⟩ := hex
    rw [addTransaction_invalid env w hn] at hr
    simp [requestsOf] at hr
  · obtain ⟨rest, hrest⟩ := addTransaction_valid_head env w hv
    refine ⟨addRequest w.doc, ?_, rfl⟩
    rw [hrest]
    simp [requestsOf]
  · rw [addTransaction_invalid env w hn]
    exact ⟨rfl, rfl⟩

/-- C1 at the two scenarios of the specification: an empty description, and
the amount `abc`, both give the alert and no request. -/
theorem addTransaction_posts_iff_valid_witness :
    addTransaction agreeableEnv (initialWorld { blankDocument with
        date := "2024-01-01".toList, category := "Pay".toList, description := [],
        amount := "10".toList }) =
      (initialWorld { blankDocument with
        date := "2024-01-01".toList, category := "Pay".toList, description := [],
        amount := "10".toList }, [.alert "Please fill out all fields correctly.".toList]) ∧
    addTransaction agreeableEnv (initialWorld { blankDocument with
        date := "2024-01-01".toList, category := "Pay".toList, description := "Salary".toList,
        amount := "abc".toList }) =
      (initialWorld { blankDocument with
        date := "2024-01-01".toList, category := "Pay".toList, description := "Salary".toList,
        amount := "abc".toList }, [.alert "Please fill out all fields correctly.".toList]) :=
  ⟨((addTransaction_posts_iff_valid agreeableEnv _).2.2 (by decide)).1,
   ((addTransaction_posts_iff_valid agreeableEnv _).2.2 (by decide)).1⟩

/-- C2: for every content of the edit form, `saveEdit` with no edit session
active (`editingTransactionId` is `null`) is a no-op: the state, edit session
included, is unchanged and there is no effect at all, so no request and no
alert.  This is the case in the initial state (no prior `showEditOverlay`) and
after `hideEditOverlay`. -/
theorem saveEdit_without_session_noop (env : Env) (w : World)
    (h : w.editingTransactionId = none) :
    saveEdit env w = (w, []) ∧
    requestsOf (saveEdit env w).2 = [] ∧ alertsOf (saveEdit env w).2 = [] ∧
    (saveEdit env w).1.editingTransactionId = none ∧
    (∀ doc, saveEdit env (initialWorld doc) = (initialWorld doc, [])) ∧
    (∀ v, saveEdit env (hideEditOverlay v) = (hideEditOverlay v, [])) := by
  have key : ∀ u : World, u.editingTransactionId = none → saveEdit env u = (u, []) := by
    intro u hu
    unfold saveEdit
    rw [hu]
  refine ⟨key w h, ?_, ?_, ?_, fun doc => key _ rfl, fun v => key _ rfl⟩
  · rw [key w h]; rfl
  · rw [key w h]; rfl
  · rw [key w h]; exact h

/-- C2 on a filled edit form with no session: nothing happens. -/
theorem saveEdit_without_session_noop_witness :
    saveEdit agreeableEnv (initialWorld { blankDocument with
        editDate := "2024-01-05".toList, editCategory := "Food".toList,
        editDescription := "Lunch".toList, editAmount := "12.5".toList }) =
      (initialWorld { blankDocument with
        editDate := "2024-01-05".toList, editCategory := "Food".toList,
        editDescription := "Lunch".toList, editAmount := "12.5".toList }, []) :=
  (saveEdit_without_session_noop agreeableEnv _ rfl).1

/-- When a session with a truthy identifier is open and the edit form is
valid, `saveEdit` starts with the PUT request for that identifier. -/
theorem saveEdit_valid_head (env : Env) (w : World) (id : JSNumber)
    (hid : w.editingTransactionId = some id) (ht : numTruthy id = true)
    (h : EditFormValid w.doc) :
    ∃ rest, (saveEdit env w).2 = .fetch (saveRequest id w.doc) :: rest := by
  have hv := (fieldsInvalid_edit w.doc).mpr h
  unfold saveEdit
  rw [hid]
  simp only [ht, Bool.not_true, Bool.false_eq_true, if_false, hv]
  split
  · split
    · split
      · split
        · exact ⟨_, rfl⟩
        · exact ⟨_, rfl⟩
      · exact ⟨_, rfl⟩
    · exact ⟨_, rfl⟩
  · exact ⟨_, rfl⟩

/-- C3 at the identifier `0`: `showEditOverlay` records the session
(`editingTransactionId` is `0`, the overlay is shown), and `saveEdit` then
returns at its guard whatever the edit form holds: no PUT request is sent, and
nothing else happens. -/
theorem saveEdit_session_zero_sends_nothing (env : Env) (w : World)
    (date category description : JSString) (amount : JSNumber) :
    (showEditOverlay (.finite 0) date category description amount w).editingTransactionId =
      some (.finite 0) ∧
    (showEditOverlay (.finite 0) date category description amount w).doc.editOverlayDisplay =
      "block".toList ∧
    saveEdit env (showEditOverlay (.finite 0) date category description amount w) =
      (showEditOverlay (.finite 0) date category description amount w, []) := by
  refine ⟨rfl, rfl, ?_⟩
  unfold saveEdit
  simp [showEditOverlay, numTruthy]

theorem requestsOf_append (a b : List Effect) :
    requestsOf (a ++ b) = requestsOf a ++ requestsOf b := by
  induction a with
  | nil => rfl
  | cons e rest ih => cases e <;> simp [requestsOf, ih]

/-- The requests of `deleteTransaction` once confirmed: the DELETE request,
followed at most by the list request of the re-fetch. -/
theorem requestsOf_deleteTransaction (env : Env) (id : JSNumber) (w : World)
    (hc : env.confirm deletePrompt = true) :
    requestsOf (deleteTransaction env id w).2 = [deleteRequest id] ∨
    requestsOf (deleteTransaction env id w).2 = [deleteRequest id, transactionsRequest w.doc] := by
  unfold deleteTransaction
  simp only [hc, Bool.not_true, Bool.false_eq_true, if_false]
  split
  · split
    · split
      · split
        · exact Or.inl rfl
        · exact Or.inl rfl
      · right
        rw [requestsOf_append, requestsOf_fetchTransactions]
        rfl
    · exact Or.inl rfl
  · exact Or.inl rfl

/-- C4: for every identifier, `deleteTransaction` issues no network request
when the confirmation is declined (the dialog is its only effect), and when it
is accepted issues exactly one DELETE request, the first request it makes,
addressed to `/api/transactions/` followed by the identifier. -/
theorem deleteTransaction_one_delete (env : Env) (id : JSNumber) (w : World) :
    (env.confirm deletePrompt = false →
      deleteTransaction env id w = (w, [.confirm deletePrompt]) ∧
      requestsOf (deleteTransaction env id w).2 = []) ∧
    (env.confirm deletePrompt = true →
      (requestsOf (deleteTransaction env id w).2).filter
          (fun r => r.method == "DELETE".toList) = [deleteRequest id] ∧
      (requestsOf (deleteTransaction env id w).2).head? = some (deleteRequest id) ∧
      (deleteRequest id).method = "DELETE".toList ∧
      (deleteRequest id).url = "/api/transactions/".toList ++ numberToString id) := by
  constructor
  · intro hc
    have h : deleteTransaction env id w = (w, [.confirm deletePrompt]) := by
      unfold deleteTransaction
      simp [hc]
    rw [h]
    exact ⟨rfl, rfl⟩
  · intro hc
    rcases requestsOf_deleteTransaction env id w hc with h | h <;> rw [h] <;>
      exact ⟨rfl, rfl, rfl, rfl⟩

/-- C4 for the identifier 7: declined, nothing is requested; accepted, the
requests are the DELETE and then the re-fetch of the list. -/
theorem deleteTransaction_one_delete_witness :
    requestsOf (deleteTransaction decliningEnv (.finite 7) (initialWorld blankDocument)).2 = [] ∧
    (requestsOf (deleteTransaction agreeableEnv (.finite 7) (initialWorld blankDocument)).2).filter
        (fun r => r.method == "DELETE".toList) = [deleteRequest (.finite 7)] :=
  ⟨((deleteTransaction_one_delete decliningEnv (.finite 7) (initialWorld blankDocument)).1 rfl).2,
   ((deleteTransaction_one_delete agreeableEnv (.finite 7) (initialWorld blankDocument)).2 rfl).1⟩

/-- C9: for every filter and every prior table, when the list request fails
in transport or its response fails to parse, `fetchTransactions` leaves the
state, the table with it, exactly as it was, logs to the console and shows no
alert. -/
theorem fetchTransactions_failure_keeps_table (env : Env) (w : World)
    (h : env.respond (transactionsRequest w.doc) = .transportFailure ∨
         env.respond (transactionsRequest w.doc) = .parseFailure) :
    (fetchTransactions env w).1 = w ∧
    (fetchTransactions env w).1.doc.tbody = w.doc.tbody ∧
    alertsOf (fetchTransactions env w).2 = [] ∧
    (fetchTransactions env w).2 = [.fetch (transactionsRequest w.doc),
      .consoleError "Error fetching transactions:".toList] := by
  have key : fetchTransactions env w = (w, [.fetch (transactionsRequest w.doc),
      .consoleError "Error fetching transactions:".toList]) := by
    unfold fetchTransactions
    rcases h with h | h <;> simp only [h]
  rw [key]
  exact ⟨rfl, rfl, rfl, rfl⟩

/-- C9 on a table holding one row, with the server unreachable: the row stays. -/
theorem fetchTransactions_failure_keeps_table_witness :
    (fetchTransactions offlineEnv
        (initialWorld { blankDocument with tbody := [⟨"<td>old</td>".toList⟩] })).1.doc.tbody =
      [⟨"<td>old</td>".toList⟩] :=
  (fetchTransactions_failure_keeps_table offlineEnv
    (initialWorld { blankDocument with tbody := [⟨"<td>old</td>".toList⟩] }) (Or.inl rfl)).2.1

theorem serialize_truthy (p : JSString × JSString) (ps : List (JSString × JSString)) :
    strTruthy (URLSearchParams.serialize (p :: ps)) = true := by
  cases ps with
  | nil => simp [URLSearchParams.serialize, strTruthy]
  | cons q rest => simp [URLSearchParams.serialize, strTruthy]

theorem serialize_nil_falsy : strTruthy (URLSearchParams.serialize []) = false := rfl

/-- Form-encoding leaves a string of safe characters as it is. -/
theorem formEncode_safe (s : JSString) (h : ∀ c ∈ s, formSafe c = true) : formEncode s = s := by
  induction s with
  | nil => rfl
  | cons c rest ih =>
    have hc : formSafe c = true := h c (List.mem_cons_self _ _)
    have hsp : c ≠ ' ' := by
      rintro rfl
      revert hc
      decide
    have hrest : formEncode rest = rest := ih (fun x hx => h x (List.mem_cons_of_mem _ hx))
    unfold formEncode at hrest ⊢
    rw [List.flatMap_cons, hrest]
    simp [formEncodeChar, hsp, hc]

theorem transactionsParams_eq (d : Document) :
    transactionsParams d = nonEmptyFields [("start_date".toList, trim d.startDate),
      ("end_date".toList, trim d.endDate), ("category".toList, trim d.filterCategory)] := by
  unfold transactionsParams nonEmptyFields strTruthy
  cases h1 : (trim d.startDate).isEmpty <;> cases h2 : (trim d.endDate).isEmpty <;>
    cases h3 : (trim d.filterCategory).isEmpty <;> simp [List.filter, h1, h2, h3]

/-- C5: the URL requested by `fetchTransactions` carries, as its query, the
serialization of exactly those of `start_date`, `end_date`, `category` whose
trimmed input is non-empty, in that order, after a `?`; when only the category
is set the query string is `category=` followed by the (form-encoded) value,
which is the value itself when it is made of letters, digits and `* - . _`;
and when all three are empty the URL is `/api/transactions` with no query
string. -/
theorem transactionsUrl_query (env : Env) (session : Option JSNumber) (d : Document) :
    transactionsParams d = nonEmptyFields [("start_date".toList, trim d.startDate),
      ("end_date".toList, trim d.endDate), ("category".toList, trim d.filterCategory)] ∧
    requestsOf (fetchTransactions env ⟨session, d⟩).2 =
      [⟨"GET".toList, transactionsUrl d, none, none⟩] ∧
    (transactionsParams d ≠ [] →
      transactionsUrl d =
        "/api/transactions?".toList ++ URLSearchParams.serialize (transactionsParams d)) ∧
    (trim d.startDate = [] → trim d.endDate = [] → trim d.filterCategory ≠ [] →
      transactionsUrl d = "/api/transactions?category=".toList ++ formEncode (trim d.filterCategory) ∧
      ((∀ c ∈ trim d.filterCategory, formSafe c = true) →
        transactionsUrl d = "/api/transactions?category=".toList ++ trim d.filterCategory)) ∧
    (trim d.startDate = [] → trim d.endDate = [] → trim d.filterCategory = [] →
      transactionsUrl d = "/api/transactions".toList) := by
  refine ⟨transactionsParams_eq d, requestsOf_fetchTransactions env ⟨session, d⟩, ?_, ?_, ?_⟩
  · intro hne
    unfold transactionsUrl
    obtain ⟨p, ps, hp⟩ := List.exists_cons_of_ne_nil hne
    simp only [hp, serialize_truthy, if_true]
    simp
  · intro h1 h2 h3
    have hp : transactionsParams d = [("category".toList, trim d.filterCategory)] := by
      unfold transactionsParams strTruthy
      cases hc : trim d.filterCategory with
      | nil => exact absurd hc h3
      | cons c cs => simp [h1, h2]
    have hurl : transactionsUrl d =
        "/api/transactions?category=".toList ++ formEncode (trim d.filterCategory) := by
      have hname : formEncode "category".toList = "category".toList := by decide
      have hs : URLSearchParams.serialize [("category".toList, trim d.filterCategory)] =
          "category=".toList ++ formEncode (trim d.filterCategory) := by
        show formEncode "category".toList ++ '=' :: formEncode (trim d.filterCategory) = _
        rw [hname]
        rfl
      unfold transactionsUrl
      simp only [hp, serialize_truthy, if_true]
      rw [hs]
      rfl
    refine ⟨hurl, fun hsafe => ?_⟩
    rw [hurl, formEncode_safe _ hsafe]
  · intro h1 h2 h3
    have hp : transactionsParams d = [] := by
      unfold transactionsParams strTruthy
      simp [h1, h2, h3]
    unfold transactionsUrl
    simp only [hp, serialize_nil_falsy, Bool.false_eq_true, if_false]

/-- C5 on the filter with only the category `Food`: the URL is
`/api/transactions?category=Food`. -/
theorem transactionsUrl_query_witness :
    transactionsUrl { blankDocument with filterCategory := " Food ".toList } =
      "/api/transactions?category=Food".toList :=
  ((transactionsUrl_query agreeableEnv none
      { blankDocument with filterCategory := " Food ".toList }).2.2.2.1
    (by decide) (by decide) (by decide)).2 (by decide)

theorem summaryParams_eq (d : Document) :
    summaryParams d = nonEmptyFields [("year".toList, trim d.summaryYear),
      ("month".toList, trim d.summaryMonth)] := by
  unfold summaryParams nonEmptyFields strTruthy
  cases h1 : (trim d.summaryYear).isEmpty <;> cases h2 : (trim d.summaryMonth).isEmpty <;>
    simp [List.filter, h1, h2]

/-- C6: the URL requested by `fetchSummary` carries, as its query, the
serialization of exactly those of `year`, `month` whose trimmed input is
non-empty, after a `?`; when both are empty the URL is exactly `/api/summary`
and has no `?` in it. -/
theorem summaryUrl_query (env : Env) (session : Option JSNumber) (d : Document) :
    summaryParams d = nonEmptyFields [("year".toList, trim d.summaryYear),
      ("month".toList, trim d.summaryMonth)] ∧
    requestsOf (fetchSummary env ⟨session, d⟩).2 =
      [⟨"GET".toList, summaryUrl d, none, none⟩] ∧
    (summaryParams d ≠ [] →
      summaryUrl d = "/api/summary?".toList ++ URLSearchParams.serialize (summaryParams d)) ∧
    (trim d.summaryYear = [] → trim d.summaryMonth = [] →
      summaryUrl d = "/api/summary".toList ∧ '?' ∉ summaryUrl d) := by
  refine ⟨summaryParams_eq d, ?_, ?_, ?_⟩
  · unfold fetchSummary
    dsimp only
    split
    · split
      · split
        · split <;> rfl
        · split <;> rfl
      · rfl
    · rfl
  · intro hne
    unfold summaryUrl
    obtain ⟨p, ps, hp⟩ := List.exists_cons_of_ne_nil hne
    simp only [hp, serialize_truthy, if_true]
    simp
  · intro h1 h2
    have hp : summaryParams d = [] := by
      unfold summaryParams strTruthy
      simp [h1, h2]
    have hurl : summaryUrl d = "/api/summary".toList := by
      unfold summaryUrl
      simp only [hp, serialize_nil_falsy, Bool.false_eq_true, if_false]
    rw [hurl]
    exact ⟨rfl, by decide⟩

/-- C6 on a blank period, and on the year 2024 alone. -/
theorem summaryUrl_query_witness :
    (summaryUrl blankDocument = "/api/summary".toList ∧ '?' ∉ summaryUrl blankDocument) ∧
    summaryUrl { blankDocument with summaryYear := "2024".toList } =
      "/api/summary?".toList ++ URLSearchParams.serialize [("year".toList, "2024".toList)] :=
  ⟨(summaryUrl_query agreeableEnv none blankDocument).2.2.2 (by decide) (by decide),
   (summaryUrl_query agreeableEnv none { blankDocument with summaryYear := "2024".toList }).2.2.1
     (by decide)⟩

theorem digitChar_isDecDigit (d : Nat) (h : d < 10) : isDecDigit (Nat.digitChar d) = true := by
  interval_cases d <;> decide

theorem toDigitsCore_all_digits (fuel : Nat) :
    ∀ (n : Nat) (acc : List Char), (∀ c ∈ acc, isDecDigit c = true) →
      ∀ c ∈ Nat.toDigitsCore 10 fuel n acc, isDecDigit c = true := by
  induction fuel with
  | zero =>
    intro n acc hacc c hc
    simp only [Nat.toDigitsCore] at hc
    exact hacc c hc
  | succ fuel ih =>
    intro n acc hacc c hc
    have hstep : ∀ x ∈ Nat.digitChar (n % 10) :: acc, isDecDigit x = true := by
      intro x hx
      rcases List.mem_cons.mp hx with rfl | hx
      · exact digitChar_isDecDigit _ (Nat.mod_lt _ (by decide))
      · exact hacc x hx
    simp only [Nat.toDigitsCore] at hc
    by_cases hz : n / 10 = 0
    · simp only [hz, if_true] at hc
      exact hstep c hc
    · simp only [hz, if_false] at hc
      exact ih (n / 10) _ hstep c hc

theorem toDigitsCore_length_ge (fuel : Nat) :
    ∀ (n : Nat) (acc : List Char), acc.length ≤ (Nat.toDigitsCore 10 fuel n acc).length := by
  induction fuel with
  | zero =>
    intro n acc
    simp [Nat.toDigitsCore]
  | succ fuel ih =>
    intro n acc
    simp only [Nat.toDigitsCore]
    by_cases hz : n / 10 = 0
    · simp [hz]
    · simp only [hz, if_false]
      have := ih (n / 10) (Nat.digitChar (n % 10) :: acc)
      simp only [List.length_cons] at this
      omega

/-- The digits of a number are decimal digits. -/
theorem decDigits_all_digits (n : Nat) : ∀ c ∈ decDigits n, isDecDigit c = true :=
  toDigitsCore_all_digits (n + 1) n [] (fun _ h => absurd h (List.not_mem_nil _))

/-- A number has at least one digit. -/
theorem decDigits_length_pos (n : Nat) : 1 ≤ (decDigits n).length := by
  unfold decDigits Nat.toDigits
  simp only [Nat.toDigitsCore]
  by_cases hz : n / 10 = 0
  · simp [hz]
  · simp only [hz, if_false]
    have := toDigitsCore_length_ge n (n / 10) [Nat.digitChar (n % 10)]
    simpa using this

theorem dropWhile_append_stop (p : Char → Bool) (a : List Char) (d : Char) (r : List Char)
    (ha : ∀ c ∈ a, p c = true) (hd : p d = false) :
    (a ++ d :: r).dropWhile p = d :: r := by
  induction a with
  | nil => simp [List.dropWhile, hd]
  | cons c rest ih =>
    have hc : p c = true := ha c (List.mem_cons_self _ _)
    simp only [List.cons_append, List.dropWhile, hc]
    exact ih (fun x hx => ha x (List.mem_cons_of_mem _ hx))

theorem takeWhile_append_stop (p : Char → Bool) (a : List Char) (d : Char) (r : List Char)
    (ha : ∀ c ∈ a, p c = true) (hd : p d = false) :
    (a ++ d :: r).takeWhile p = a := by
  induction a with
  | nil => simp [List.takeWhile, hd]
  | cons c rest ih =>
    have hc : p c = true := ha c (List.mem_cons_self _ _)
    simp only [List.cons_append, List.takeWhile, hc]
    exact congrArg (List.cons c) (ih (fun x hx => ha x (List.mem_cons_of_mem _ hx)))

/-- Digits split two from the end around a point, under an optional minus
sign, show two decimals. -/
theorem point_before_last_two (ds : List Char) (sign : List Char)
    (hsign : sign = [] ∨ sign = ['-'])
    (hd : ∀ c ∈ ds, isDecDigit c = true) (hlen : 3 ≤ ds.length) :
    shownWithTwoDecimals
      (sign ++ (ds.take (ds.length - 2) ++ '.' :: ds.drop (ds.length - 2))) = true := by
  have hta : ∀ c ∈ ds.take (ds.length - 2), isDecDigit c = true :=
    fun c hc => hd c (List.mem_of_mem_take hc)
  have hne : ds.take (ds.length - 2) ≠ [] := by
    intro h
    have := congrArg List.length h
    simp at this
    omega
  obtain ⟨x, y, hxy⟩ : ∃ x y, ds.drop (ds.length - 2) = [x, y] := by
    have hl : (ds.drop (ds.length - 2)).length = 2 := by
      simp
      omega
    match hds : ds.drop (ds.length - 2), hl with
    | [x, y], _ => exact ⟨x, y, rfl⟩
  have hx : isDecDigit x = true :=
    hd x (List.mem_of_mem_drop (by rw [hxy]; exact List.mem_cons_self _ _))
  have hy : isDecDigit y = true :=
    hd y (List.mem_of_mem_drop (by rw [hxy]; simp))
  have hpoint : isDecDigit '.' = false := by decide
  have hbody : digitsPointTwoDigits (ds.take (ds.length - 2) ++ '.' :: [x, y]) = true := by
    unfold digitsPointTwoDigits
    rw [dropWhile_append_stop _ _ _ _ hta hpoint, takeWhile_append_stop _ _ _ _ hta hpoint]
    cases htk : ds.take (ds.length - 2) with
    | nil => exact absurd htk hne
    | cons c cs => simp [hx, hy]
  rw [hxy]
  unfold shownWithTwoDecimals
  rcases hsign with rfl | rfl
  · have hstrip : stripMinus ([] ++ (ds.take (ds.length - 2) ++ '.' :: [x, y])) =
        ds.take (ds.length - 2) ++ '.' :: [x, y] := by
      cases htk : ds.take (ds.length - 2) with
      | nil => exact absurd htk hne
      | cons c cs =>
        have hc : isDecDigit c = true := hta c (by rw [htk]; exact List.mem_cons_self _ _)
        have hcm : c ≠ '-' := by
          rintro rfl
          revert hc
          decide
        simp only [List.nil_append, List.cons_append]
        unfold stripMinus
        split
        · rename_i rest heq
          exact absurd (List.cons.inj heq).1 hcm
        · rfl
    rw [hstrip]
    exact hbody
  · exact hbody

/-- Below `10 ^ 21` in magnitude, `toFixed(2)` shows two decimals. -/
theorem toFixed_two_decimals (q : ℚ) (h : |q| < 10 ^ 21) :
    shownWithTwoDecimals (toFixed (.finite q) 2) = true := by
  unfold toFixed
  simp only [not_le.mpr h, if_false, show (2 : Nat) ≠ 0 by decide]
  apply point_before_last_two
  · by_cases hq : q < 0 <;> simp [hq]
  · intro c hc
    split at hc
    · rcases List.mem_append.mp hc with hc | hc
      · rw [List.eq_of_mem_replicate hc]
        decide
      · exact decDigits_all_digits _ c hc
    · exact decDigits_all_digits _ c hc
  · split
    · have := decDigits_length_pos (Rat.floor (|q| * 10 ^ 2 + 1 / 2)).toNat
      simp only [List.length_append, List.length_replicate]
      omega
    · omega

/-- The integer `toFixed` writes is the nearest to the scaled value, the
larger one on a tie. -/
theorem toFixed_integer_nearest (a : ℚ) (f : Nat) (ha : 0 ≤ a) :
    (((Rat.floor (a * 10 ^ f + 1 / 2)).toNat : Nat) : ℚ) - 1 / 2 ≤ a * 10 ^ f ∧
    a * 10 ^ f < (((Rat.floor (a * 10 ^ f + 1 / 2)).toNat : Nat) : ℚ) + 1 / 2 := by
  have h : Rat.floor (a * 10 ^ f + 1 / 2) = ⌊a * 10 ^ f + 1 / 2⌋ := rfl
  have hnn : (0 : ℤ) ≤ ⌊a * 10 ^ f + 1 / 2⌋ := Int.floor_nonneg.mpr (by positivity)
  have hcast : (((⌊a * 10 ^ f + 1 / 2⌋).toNat : Nat) : ℚ) = ((⌊a * 10 ^ f + 1 / 2⌋ : ℤ) : ℚ) := by
    have := Int.toNat_of_nonneg hnn
    exact_mod_cast this
  rw [h, hcast]
  constructor
  · have := Int.floor_le (a * 10 ^ f + 1 / 2)
    linarith
  · have := Int.lt_floor_add_one (a * 10 ^ f + 1 / 2)
    linarith

/-- An amount field reading `Infinity` passes the validation of `saveEdit`, and
the body of the PUT request then carries `null` for the amount. -/
theorem saveRequest_infinite_amount :
    EditFormValid { salaryDocument with editAmount := "Infinity".toList } ∧
    (saveRequest (.finite 5) { salaryDocument with editAmount := "Infinity".toList }).body =
      some ("\x7b\"date\":\"2024-01-01\",\"category\":\"Pay\"," ++
        "\"description\":\"Salary\",\"amount\":null\x7d").toList := by
  decide!

theorem cellTexts_skip (s r : List Char) (h : '<' ∉ s) : cellTexts (s ++ r) = cellTexts r := by
  induction s with
  | nil => rfl
  | cons c rest ih =>
    have hc : c ≠ '<' := fun hc => h (hc ▸ List.mem_cons_self _ _)
    have hrest : '<' ∉ rest := fun hm => h (List.mem_cons_of_mem _ hm)
    have hp : "<td>".toList.isPrefixOf (c :: (rest ++ r)) = false := by
      simp [List.isPrefixOf, Ne.symm hc]
    show cellTexts (c :: (rest ++ r)) = cellTexts r
    rw [cellTexts, hp]
    simpa using ih hrest

theorem takeWhile_before_tag (content r : List Char) (h : '<' ∉ content) :
    (content ++ '<' :: r).takeWhile (fun x => x != '<') = content := by
  apply takeWhile_append_stop
  · intro c hc
    have : c ≠ '<' := fun hh => h (hh ▸ hc)
    simpa using this
  · simp

/-- The reader finds the content of a text cell at the head of the markup. -/
theorem cellTexts_tableCell (content r : List Char) (h : '<' ∉ content) :
    cellTexts (tableCell content ++ r) = content :: cellTexts r := by
  have h1 : tableCell content ++ r =
      '<' :: ('t' :: 'd' :: '>' :: (content ++ '<' :: ('/' :: 't' :: 'd' :: '>' :: r))) := by
    simp [tableCell]
  rw [h1]
  have h2 : cellTexts ('t' :: 'd' :: '>' :: (content ++ '<' :: ('/' :: 't' :: 'd' :: '>' :: r))) =
      cellTexts r := by
    have e1 := cellTexts_skip ['t', 'd', '>'] (content ++ '<' :: ('/' :: 't' :: 'd' :: '>' :: r))
      (by decide)
    have e2 := cellTexts_skip content ('<' :: ('/' :: 't' :: 'd' :: '>' :: r)) h
    have e3 : cellTexts ('<' :: ('/' :: 't' :: 'd' :: '>' :: r)) =
        cellTexts ('/' :: 't' :: 'd' :: '>' :: r) := by
      simp [cellTexts, List.isPrefixOf]
    have e4 := cellTexts_skip ['/', 't', 'd', '>'] r (by decide)
    simp only [List.cons_append, List.nil_append] at e1 e4
    rw [e1, e2, e3, e4]
  have hp : "<td>".toList.isPrefixOf
      ('<' :: ('t' :: 'd' :: '>' :: (content ++ '<' :: ('/' :: 't' :: 'd' :: '>' :: r)))) = true := by
    simp [List.isPrefixOf]
  rw [cellTexts, hp, if_pos rfl, h2]
  simp only [List.drop]
  rw [takeWhile_before_tag content _ h]

/-- The first four cells read from the row of a transaction whose texts hold
no `<` are its date, category, description and formatted amount. -/
theorem cellTexts_row (t : Transaction) (hd : '<' ∉ t.date) (hc : '<' ∉ t.category)
    (hs : '<' ∉ t.description) (ha : '<' ∉ toFixed t.amount 2) :
    (cellTexts (Transaction.row t).innerHTML).take 4 =
      [t.date, t.category, t.description, toFixed t.amount 2] := by
  have hws : '<' ∉ "\n      ".toList := by decide
  simp only [Transaction.row, List.append_assoc]
  rw [cellTexts_skip _ _ hws, cellTexts_tableCell _ _ hd,
    cellTexts_skip _ _ hws, cellTexts_tableCell _ _ hc,
    cellTexts_skip _ _ hws, cellTexts_tableCell _ _ hs,
    cellTexts_skip _ _ hws, cellTexts_tableCell _ _ ha]
  rfl

/-- Below `10 ^ 21` in magnitude, the text of `toFixed(2)` holds no `<`. -/
theorem toFixed_no_tag (q : ℚ) (h : |q| < 10 ^ 21) : '<' ∉ toFixed (.finite q) 2 := by
  unfold toFixed
  simp only [not_le.mpr h, if_false, show (2 : Nat) ≠ 0 by decide]
  have hdig : ∀ c ∈ (if (decDigits (Rat.floor (|q| * 10 ^ 2 + 1 / 2)).toNat).length ≤ 2 then
        List.replicate (2 + 1 - (decDigits (Rat.floor (|q| * 10 ^ 2 + 1 / 2)).toNat).length) '0' ++
          decDigits (Rat.floor (|q| * 10 ^ 2 + 1 / 2)).toNat
      else decDigits (Rat.floor (|q| * 10 ^ 2 + 1 / 2)).toNat), isDecDigit c = true := by
    intro c hc
    split at hc
    · rcases List.mem_append.mp hc with hc | hc
      · rw [List.eq_of_mem_replicate hc]
        decide
      · exact decDigits_all_digits _ c hc
    · exact decDigits_all_digits _ c hc
  have hnd : isDecDigit '<' = false := by decide
  intro hm
  rcases List.mem_append.mp hm with hm | hm
  · by_cases hq : q < 0
    · simp [hq] at hm
    · simp [hq] at hm
  · rcases List.mem_append.mp hm with hm | hm
    · have := hdig _ (List.mem_of_mem_take hm)
      rw [hnd] at this
      exact Bool.false_ne_true this
    · rcases List.mem_cons.mp hm with hm | hm
      · exact absurd hm (by decide)
      · have := hdig _ (List.mem_of_mem_drop hm)
        rw [hnd] at this
        exact Bool.false_ne_true this

set_option maxRecDepth 100000 in
theorem renderRow_transaction (t : Transaction) : renderRow t.toJS = some t.row := by
  have h : renderRow t.toJS = some ⟨rowMarkup t.date t.category t.description (toFixed t.amount 2)
      (numberToString (.finite t.id)) (numberToString t.amount)⟩ := rfl
  rw [h]
  simp only [rowMarkup, Transaction.row, tableCell, Transaction.editCall, Transaction.deleteCall,
    List.append_assoc]
  rfl

theorem appendRows_transactions (txs : List Transaction) :
    ∀ rows, appendRows (txs.map Transaction.toJS) rows = (rows ++ txs.map Transaction.row, true) := by
  induction txs with
  | nil => intro rows; simp [appendRows]
  | cons t rest ih =>
    intro rows
    simp only [List.map_cons, appendRows, renderRow_transaction, ih]
    simp

/-- C7, as amended: for every list of transactions and every prior table,
`populateTable` runs to its end and leaves the table body holding exactly one
row per transaction, in the order of the list, none of the prior rows
remaining and nothing else of the state changed; each row is the date cell,
the category cell, the description cell, the amount cell holding
`amount.toFixed(2)` and the cell of the two buttons; read back from the
markup of a row whose texts hold no `<`, the fourth cell is that formatted
amount, which for every finite amount of magnitude below `10 ^ 21` has exactly
two digits after the decimal point (`12.5` is shown as `12.50`). -/
theorem populateTable_rows (txs : List Transaction) (w : World) :
    populateTable (.arr (txs.map Transaction.toJS)) w =
      ({ w with doc := { w.doc with tbody := txs.map Transaction.row } }, true) ∧
    (populateTable (.arr (txs.map Transaction.toJS)) w).1.doc.tbody.length = txs.length ∧
    (∀ t ∈ txs, ∀ q : ℚ, t.amount = .finite q → |q| < 10 ^ 21 →
      shownWithTwoDecimals (toFixed t.amount 2) = true ∧
      ('<' ∉ t.date → '<' ∉ t.category → '<' ∉ t.description →
        (cellTexts (Transaction.row t).innerHTML).take 4 =
          [t.date, t.category, t.description, toFixed t.amount 2])) ∧
    toFixed (.finite 12.5) 2 = "12.50".toList := by
  have key : populateTable (.arr (txs.map Transaction.toJS)) w =
      ({ w with doc := { w.doc with tbody := txs.map Transaction.row } }, true) := by
    unfold populateTable
    simp only [appendRows_transactions, List.nil_append]
  refine ⟨key, ?_, ?_, by decide!⟩
  · rw [key]
    simp
  · intro t _ q hq hlt
    refine ⟨?_, fun hd hc hs => cellTexts_row t hd hc hs ?_⟩
    · rw [hq]
      exact toFixed_two_decimals q hlt
    · rw [hq]
      exact toFixed_no_tag q hlt

/-- C7 on the scenario of the specification, over a table holding an old row:
the table holds one row, whose cells read `2024-01-05`, `Food`, `Lunch` and
`12.50`, the last with two decimals. -/
theorem populateTable_rows_witness :
    (populateTable (.arr [Transaction.toJS ⟨1, "2024-01-05".toList, "Food".toList,
        "Lunch".toList, .finite 12.5⟩])
      (initialWorld { blankDocument with tbody := [⟨"<td>old</td>".toList⟩] })).1.doc.tbody.map
        (fun row => (cellTexts row.innerHTML).take 4) =
      [["2024-01-05".toList, "Food".toList, "Lunch".toList, "12.50".toList]] ∧
    shownWithTwoDecimals (toFixed (.finite 12.5) 2) = true :=
  ⟨(congrArg (fun r => r.1.doc.tbody.map (fun row => (cellTexts row.innerHTML).take 4))
      (populateTable_rows [⟨1, "2024-01-05".toList, "Food".toList, "Lunch".toList, .finite 12.5⟩]
        (initialWorld { blankDocument with tbody := [⟨"<td>old</td>".toList⟩] })).1).trans
      (by decide!),
   ((populateTable_rows [⟨1, "2024-01-05".toList, "Food".toList, "Lunch".toList, .finite 12.5⟩]
      (initialWorld blankDocument)).2.2.1 _ (List.mem_singleton.mpr rfl) 12.5 rfl
      (by norm_num [abs_lt])).1⟩

/-- C7 as stated fails at the amount `10 ^ 21`: the row is rendered, and its
amount cell, the fourth, reads `1e+21`, which has no decimal point at all. -/
theorem populateTable_amount_1e21 :
    (populateTable (.arr [Transaction.toJS ⟨1, "2024-01-05".toList, "Food".toList,
        "Lunch".toList, .finite (10 ^ 21)⟩]) (initialWorld blankDocument)).1.doc.tbody.map
        (fun row => (cellTexts row.innerHTML).take 4) =
      [["2024-01-05".toList, "Food".toList, "Lunch".toList, "1e+21".toList]] ∧
    toFixed (.finite (10 ^ 21)) 2 = "1e+21".toList ∧
    shownWithTwoDecimals (toFixed (.finite (10 ^ 21)) 2) = false := by
  decide!

/-- C8 as stated fails on the response `{"error": ""}`: it carries an error
field, yet `addTransaction` announces success, resets the add form and
re-fetches the list. -/
theorem addTransaction_empty_error_field :
    (JSValue.obj [("error".toList, .str [])]).getProp "error".toList = some (.str []) ∧
    alertsOf (addTransaction emptyErrorEnv (initialWorld salaryDocument)).2 =
      ["Transaction added!".toList] ∧
    requestsOf (addTransaction emptyErrorEnv (initialWorld salaryDocument)).2 =
      [addRequest salaryDocument,
       transactionsRequest (clearForm "add-form".toList salaryDocument)] ∧
    (addTransaction emptyErrorEnv (initialWorld salaryDocument)).1.doc.description = [] :=
  ⟨rfl, by decide!⟩

/-- The reply `{"error": {"toString": 1}}` has a truthy error field with no
string conversion: building the alert text raises, `catch` logs, and no alert
is shown. -/
theorem addTransaction_error_without_text :
    addTransaction
        { respond := fun _ => .json (.obj [("error".toList,
            .obj [("toString".toList, .num (.finite 1))])]), confirm := fun _ => true }
        (initialWorld salaryDocument) =
      (initialWorld salaryDocument,
        [.fetch (addRequest salaryDocument), .consoleError "Error adding transaction:".toList]) := by
  decide!

/-- C8, as amended: when the parsed response carries a truthy `error` field
(for a string: a non-empty message) that has a string conversion (every
string, number and boolean has one), each of `addTransaction`, `saveEdit` and
`deleteTransaction` shows the alert `Error: ` followed by that message after
its request and does nothing more: no list re-fetch, and the state is exactly
as before, so the add form is not cleared and the edit session keeps its
identifier and the overlay its visibility. -/
theorem server_error_stops_operation (env : Env) (w : World) (data err : JSValue)
    (message : JSString)
    (herr : data.getProp "error".toList = some err) (htruthy : err.truthy = true)
    (hmessage : err.toJSString = some message) :
    (AddFormValid w.doc → env.respond (addRequest w.doc) = .json data →
      addTransaction env w =
        (w, [.fetch (addRequest w.doc), .alert ("Error: ".toList ++ message)])) ∧
    (∀ sid, w.editingTransactionId = some sid → numTruthy sid = true → EditFormValid w.doc →
      env.respond (saveRequest sid w.doc) = .json data →
      saveEdit env w =
        (w, [.fetch (saveRequest sid w.doc), .alert ("Error: ".toList ++ message)])) ∧
    (∀ id, env.confirm deletePrompt = true → env.respond (deleteRequest id) = .json data →
      deleteTransaction env id w =
        (w, [.confirm deletePrompt, .fetch (deleteRequest id),
             .alert ("Error: ".toList ++ message)])) ∧
    (∀ text : JSString, text ≠ [] →
      (JSValue.str text).truthy = true ∧ (JSValue.str text).toJSString = some text) := by
  refine ⟨fun hv hr => ?_, fun sid hsid ht hv hr => ?_, fun id hc hr => ?_, fun text ht => ?_⟩
  · have hf := (fieldsInvalid_add w.doc).mpr hv
    unfold addTransaction
    simp only [hf, Bool.false_eq_true, if_false, hr, herr, htruthy, if_true, hmessage]
  · have hf := (fieldsInvalid_edit w.doc).mpr hv
    unfold saveEdit
    rw [hsid]
    simp only [ht, Bool.not_true, hf, Bool.false_eq_true, if_false, hr, herr, htruthy, if_true,
      hmessage]
  · unfold deleteTransaction
    simp only [hc, Bool.not_true, Bool.false_eq_true, if_false, hr, herr, htruthy, if_true,
      hmessage]
  · exact ⟨(strTruthy_eq_true_iff text).mpr ht, rfl⟩

/-- C8 on the response `{"error": "Invalid date"}`: the add form keeps its
content, the session opened on transaction 5 stays open, and each operation
ends with the alert `Error: Invalid date`. -/
theorem server_error_stops_operation_witness :
    addTransaction invalidDateEnv (initialWorld salaryDocument) =
      (initialWorld salaryDocument,
        [.fetch (addRequest salaryDocument), .alert "Error: Invalid date".toList]) ∧
    saveEdit invalidDateEnv ⟨some (.finite 5), salaryDocument⟩ =
      (⟨some (.finite 5), salaryDocument⟩,
        [.fetch (saveRequest (.finite 5) salaryDocument), .alert "Error: Invalid date".toList]) ∧
    deleteTransaction invalidDateEnv (.finite 5) (initialWorld salaryDocument) =
      (initialWorld salaryDocument,
        [.confirm deletePrompt, .fetch (deleteRequest (.finite 5)),
         .alert "Error: Invalid date".toList]) :=
  ⟨(server_error_stops_operation invalidDateEnv (initialWorld salaryDocument)
      (.obj [("error".toList, .str "Invalid date".toList)]) (.str "Invalid date".toList)
      "Invalid date".toList rfl rfl rfl).1 (by decide!) rfl,
   (server_error_stops_operation invalidDateEnv ⟨some (.finite 5), salaryDocument⟩
      (.obj [("error".toList, .str "Invalid date".toList)]) (.str "Invalid date".toList)
      "Invalid date".toList rfl rfl rfl).2.1 (.finite 5) rfl (by decide!) (by decide!) rfl,
   (server_error_stops_operation invalidDateEnv (initialWorld salaryDocument)
      (.obj [("error".toList, .str "Invalid date".toList)]) (.str "Invalid date".toList)
      "Invalid date".toList rfl rfl rfl).2.2.1 (.finite 5) rfl rfl⟩

/-- C10 at a description with an apostrophe: for the transaction
`{id: 1, date: "2024-01-05", category: "Food", description: "Bob's lunch",
amount: 12.5}` the Edit button's handler text is
`showEditOverlay(1, '2024-01-05', 'Food', 'Bob's lunch', 12.5)`, whose last
string literal is unterminated: a syntax error, so a click calls nothing and
opens no edit session.  The Delete button of the same row is bound to the
identifier, and with the description `Lunch` the Edit button is bound to the
transaction's fields. -/
theorem editHandler_apostrophe :
    (renderRow (Transaction.toJS ⟨1, "2024-01-05".toList, "Food".toList, "Bob's lunch".toList,
        .finite 12.5⟩)).bind TableRow.editHandler =
      some "showEditOverlay(1, '2024-01-05', 'Food', 'Bob's lunch', 12.5)".toList ∧
    (evalHandler
      "showEditOverlay(1, '2024-01-05', 'Food', 'Bob's lunch', 12.5)".toList).isSyntaxError = true ∧
    callsShowEditOverlayWith
        ⟨1, "2024-01-05".toList, "Food".toList, "Bob's lunch".toList, .finite 12.5⟩
        (evalHandler
          "showEditOverlay(1, '2024-01-05', 'Food', 'Bob's lunch', 12.5)".toList) = false ∧
    (renderRow (Transaction.toJS ⟨1, "2024-01-05".toList, "Food".toList, "Bob's lunch".toList,
        .finite 12.5⟩)).bind (fun row => clickEdit row (initialWorld blankDocument)) =
      some (initialWorld blankDocument) ∧
    ((renderRow (Transaction.toJS ⟨1, "2024-01-05".toList, "Food".toList, "Bob's lunch".toList,
        .finite 12.5⟩)).bind TableRow.deleteHandler).map
      (fun text => callsDeleteTransactionWith
        ⟨1, "2024-01-05".toList, "Food".toList, "Bob's lunch".toList, .finite 12.5⟩
        (evalHandler text)) = some true ∧
    ((renderRow (Transaction.toJS ⟨1, "2024-01-05".toList, "Food".toList, "Lunch".toList,
        .finite 12.5⟩)).bind TableRow.editHandler).map
      (fun text => callsShowEditOverlayWith
        ⟨1, "2024-01-05".toList, "Food".toList, "Lunch".toList, .finite 12.5⟩
        (evalHandler text)) = some true := by
  decide!

end FinanceTracker
